import Mathlib

/-!
Shallow embedding of `nlq.py`, a thin layer that renders an SQLite schema
as a commented text block, builds prompts for two remote completion
endpoints, and hands the final SQL string to the database connection.
Python strings are modelled as lists of characters (`Str`); the stdlib
helpers the source relies on (`str.split`, `str.join`, `str.replace`,
`textwrap.dedent`, `str.format`) are modelled below, following CPython's
semantics for the fragments exercised by the code.
-/

set_option autoImplicit false

namespace NLQ

/-- Python strings, modelled as lists of unicode characters. -/
abbrev Str := List Char

/-- Character data of a Lean string literal, used to write `Str` constants. -/
def str (s : String) : Str := s.data

/-- `s.split("\x7bsep\x7d")` for the one-character separator `"\n"`:
splits on every newline; the empty string yields one empty piece. -/
def splitOnNl : Str → List Str
  | [] => [[]]
  | c :: cs => if c = '\n' then [] :: splitOnNl cs else consHead c (splitOnNl cs)
where
  /-- Prepend a character to the first piece of a split. -/
  consHead (c : Char) : List Str → List Str
    | [] => [[c]]
    | l :: ls => (c :: l) :: ls

/-- Tail part of `sep.join`: every element is preceded by the separator. -/
def joinWithAux (sep : Str) : List Str → Str
  | [] => []
  | l :: ls => sep ++ l ++ joinWithAux sep ls

/-- Python `sep.join(pieces)`. -/
def joinWith (sep : Str) : List Str → Str
  | [] => []
  | l :: ls => l ++ joinWithAux sep ls

/-- Python `s.replace("\n", rep)`: every newline is replaced by `rep`. -/
def replaceNl (rep : Str) : Str → Str
  | [] => []
  | c :: cs => (if c = '\n' then rep else [c]) ++ replaceNl rep cs

/-- A line consisting solely of blanks or tabs and at least one character
(the lines `textwrap.dedent` normalises to empty). -/
def isWsLine (l : Str) : Bool := !l.isEmpty && l.all (fun c => c == ' ' || c == '\t')

/-- Leading run of blanks and tabs of a line, as matched by
`textwrap.dedent`'s leading-whitespace pattern. -/
def leadingWs (l : Str) : Str := l.takeWhile (fun c => c == ' ' || c == '\t')

/-- Longest common prefix of two character lists, as computed by the
margin loop of `textwrap.dedent`. -/
def lcp : Str → Str → Str
  | a :: as, b :: bs => if a = b then a :: lcp as bs else []
  | _, _ => []

/-- Normalisation `textwrap.dedent` applies first: lines of blanks and
tabs only become empty. -/
def normLine (l : Str) : Str := if isWsLine l then [] else l

/-- The common margin `textwrap.dedent` strips: the longest common prefix
of the leading whitespace of all non-empty (already normalised) lines. -/
def dedentMargin (lines : List Str) : Str :=
  match (lines.filter (fun l => !l.isEmpty)).map leadingWs with
  | [] => []
  | i :: is => is.foldl lcp i

/-- CPython's `textwrap.dedent`: empty the whitespace-only lines, compute
the common margin of the remaining lines, and strip it from every line
that carries it. -/
def dedent (t : Str) : Str :=
  let lines := (splitOnNl t).map normLine
  let margin := dedentMargin lines
  joinWith (str "\n") (lines.map (fun l => if margin ≠ [] ∧ margin <+: l then l.drop margin.length else l))

/-- Numeric value of a digit string, for explicit positional fields of
`str.format`. -/
def natOfDigits (s : Str) : Nat := s.foldl (fun n c => 10 * n + (c.toNat - 48)) 0

/-- Scanner state of the `str.format` model: plain text, just after an
opening or a closing brace, or inside a replacement field with the field
text read so far. -/
inductive FmtMode where
  | lit : FmtMode
  | openB : FmtMode
  | closeB : FmtMode
  | field : Str → FmtMode

/-- Substitution performed when a replacement field closes: automatic
numbering for an empty field, explicit position for a digit field,
an error for everything else or on automatic/manual mixing or an index
out of range. Returns the substituted text and the updated
(counter, used-automatic, used-manual) state. -/
def applyField (args : List Str) (acc : Str) (auto : Nat) (usedA usedM : Bool) :
    Option (Str × Nat × Bool × Bool) :=
  if acc = [] then
    if usedM then none
    else
      match args.get? auto with
      | none => none
      | some a => some (a, auto + 1, true, usedM)
  else if acc.all Char.isDigit then
    if usedA then none
    else
      match args.get? (natOfDigits acc) with
      | none => none
      | some a => some (a, auto, usedA, true)
  else none

/-- Modelled from the spec: core of CPython's `str.format` with positional
arguments, as used by `make_prompt` (the call into Python's stdlib is not
part of the repository). Covers literal text, doubled braces, automatic
`\x7b\x7d` and explicit-positional `\x7b0\x7d` fields, the
automatic/manual mixing error, the unmatched-brace errors and the
index-out-of-range error; any other field shape (named fields,
conversions, format specs) is also treated as an error. `none` models a
raised exception. -/
def pyFormatAux (args : List Str) : Str → FmtMode → Nat → Bool → Bool → Option Str
  | [], FmtMode.lit, _, _, _ => some []
  | [], FmtMode.openB, _, _, _ => none
  | [], FmtMode.closeB, _, _, _ => none
  | [], FmtMode.field _, _, _, _ => none
  | c :: cs, FmtMode.lit, auto, usedA, usedM =>
    if c = '\x7b' then pyFormatAux args cs FmtMode.openB auto usedA usedM
    else if c = '\x7d' then pyFormatAux args cs FmtMode.closeB auto usedA usedM
    else (pyFormatAux args cs FmtMode.lit auto usedA usedM).map (fun r => c :: r)
  | c :: cs, FmtMode.openB, auto, usedA, usedM =>
    if c = '\x7b' then (pyFormatAux args cs FmtMode.lit auto usedA usedM).map (fun r => '\x7b' :: r)
    else if c = '\x7d' then
      match applyField args [] auto usedA usedM with
      | none => none
      | some (a, auto2, usedA2, usedM2) =>
        (pyFormatAux args cs FmtMode.lit auto2 usedA2 usedM2).map (fun r => a ++ r)
    else pyFormatAux args cs (FmtMode.field [c]) auto usedA usedM
  | c :: cs, FmtMode.closeB, auto, usedA, usedM =>
    if c = '\x7d' then (pyFormatAux args cs FmtMode.lit auto usedA usedM).map (fun r => '\x7d' :: r)
    else none
  | c :: cs, FmtMode.field acc, auto, usedA, usedM =>
    if c = '\x7d' then
      match applyField args acc auto usedA usedM with
      | none => none
      | some (a, auto2, usedA2, usedM2) =>
        (pyFormatAux args cs FmtMode.lit auto2 usedA2 usedM2).map (fun r => a ++ r)
    else if c = '\x7b' then none
    else pyFormatAux args cs (FmtMode.field (acc ++ [c])) auto usedA usedM

/-- Python `s.format(args...)` with positional arguments (see
`pyFormatAux` for the covered fragment). -/
def pyFormat (s : Str) (args : List Str) : Option Str :=
  pyFormatAux args s FmtMode.lit 0 false false

/-- A default value reported by the `PRAGMA table_info` metadata query
(`None | int | float | str` in the source). The numeric payload of a
float default is not modelled: no code path or claim reads it. -/
inductive SqliteValue where
  | intVal : Int → SqliteValue
  | realVal : SqliteValue
  | textVal : Str → SqliteValue
deriving DecidableEq

/-- One metadata row of `PRAGMA table_info`:
(cid, name, type, notnull, dflt_value, pk). -/
abbrev PragmaRow := Int × Str × Str × Int × Option SqliteValue × Int

/-- `ColumnInfo` dataclass of the source. -/
structure ColumnInfo where
  cid : Int
  name : Str
  type : Str
  notnull : Int
  dflt_value : Option SqliteValue
  pk : Int
deriving DecidableEq

/-- `ColumnInfo.format`: `"<name> <type> <NOTNULL|NULLABLE>"`, followed by
`"description: <desc>"` when a truthy (non-`None`, non-empty) description
is supplied, joined by single blanks. -/
def ColumnInfo.format (c : ColumnInfo) (desc : Option Str) : Str :=
  let null := if c.notnull ≠ 0 then str "NOTNULL" else str "NULLABLE"
  let descs := match desc with
    | some d => if d = [] then [] else [str "description:", d]
    | none => []
  joinWith (str " ") ([c.name, c.type, null] ++ descs)

/-- Python `dict.get(key)` on a string-keyed mapping, modelled over an
association list. -/
def dictGet (d : List (Str × Str)) (k : Str) : Option Str :=
  (d.find? (fun p => p.fst == k)).map (fun p => p.snd)

/-- Python `dict.get(key, \x7b\x7d)` on the table-to-descriptions mapping. -/
def dictGetD (d : List (Str × List (Str × Str))) (k : Str) : List (Str × Str) :=
  ((d.find? (fun p => p.fst == k)).map (fun p => p.snd)).getD []

/-- `TableInfo` dataclass of the source. -/
structure TableInfo where
  columns : List ColumnInfo
deriving DecidableEq

/-- `TableInfo.format`: newline-joined column lines, looking up each
column's description by name. -/
def TableInfo.format (t : TableInfo) (desc_dict : List (Str × Str)) : Str :=
  joinWith (str "\n") (t.columns.map (fun column => column.format (dictGet desc_dict column.name)))

/-- `TableInfo.from_rows`: build a `TableInfo` from raw metadata rows
(`ColumnInfo(*row)` per row). -/
def TableInfo.from_rows (rows : List PragmaRow) : TableInfo :=
  TableInfo.mk (rows.map (fun r =>
    ColumnInfo.mk r.1 r.2.1 r.2.2.1 r.2.2.2.1 r.2.2.2.2.1 r.2.2.2.2.2))

/-- The live database schema behind the connection: the catalog query
result (`SELECT name FROM sqlite_master WHERE type = "table"`, in catalog
order) and the per-table metadata query result (`PRAGMA table_info`). -/
structure Schema where
  tables : List Str
  table_info : Str → List PragmaRow

/-- The `SQlite` dataclass: the connection's schema and the optional
description map. (The `api_key` field only feeds the process-wide
`openai.api_key` assignment in `__post_init__` and is not read by any
other method, so it is not modelled.) -/
structure SQlite where
  schema : Schema
  column_descriptions : Option (List (Str × List (Str × Str)))

/-- `SQlite.table_names`: the table names reported by the catalog. -/
def SQlite.table_names (s : SQlite) : List Str := s.schema.tables

/-- `SQlite.descriptions`: `self.column_descriptions or \x7b\x7d` —
the empty map when the field is `None` (or empty). -/
def SQlite.descriptions (s : SQlite) : List (Str × List (Str × Str)) :=
  s.column_descriptions.getD []

/-- The newline-joined block `format_tables_info` builds before comment
prefixing: per table a blank line, a `TABLE_NAME:` line, the formatted
column block and a trailing blank line. -/
def SQlite.tablesBlock (s : SQlite) : Str :=
  joinWith (str "\n") (List.flatten (s.table_names.map (fun table_name =>
    [[], str "TABLE_NAME: " ++ table_name,
     TableInfo.format (TableInfo.from_rows (s.schema.table_info table_name))
       (dictGetD s.descriptions table_name),
     []])))

/-- `SQlite.format_tables_info`: the schema block with every newline
rewritten to a newline plus the comment marker. -/
def SQlite.format_tables_info (s : SQlite) : Str :=
  replaceNl (str "\n# ") s.tablesBlock

/-- `SQlite.make_prompt`: apply `str.format` with arguments `"\n"` and
`"\n# "` to the question, splice the schema block and the formatted
question into the 12-blank-indented f-string template, and run
`textwrap.dedent` over the result. `none` models a `str.format`
exception. -/
def SQlite.make_prompt (s : SQlite) (query : Str) : Option Str :=
  (pyFormat query [str "\n", str "\n# "]).map (fun q =>
    dedent (str "\n            " ++ s.format_tables_info
      ++ str "\n            # " ++ q
      ++ str "\n            SELECT *\n            "))

/-- Errors that can escape the prompt/query builder: a `str.format`
exception from `make_prompt`, or an error raised by a remote completion
endpoint (carried unchanged). -/
inductive ExecError (ε : Type) where
  | formatError : ExecError ε
  | remoteError : ε → ExecError ε
deriving DecidableEq

/-- One message of the chat-completion request. -/
structure ChatMessage where
  role : Str
  content : Str

/-- The chat-completion request `_build_query` sends. -/
structure ChatReq where
  model : Str
  messages : List ChatMessage

/-- The single-prompt completion request `_translate` sends, with its
fixed sampling parameters (the float-valued `top_p` and penalty knobs,
fixed at 1.0 and 0.0, are not modelled). -/
structure CompletionReq where
  model : Str
  prompt : Str
  temperature : Nat
  max_tokens : Nat
  stop : List Str

/-- The prompt `_translate` builds: each draft-SQL line plus a blank line
and a fixed instruction line, all comment-prefixed, then a blank line and
a literal `SELECT *`. -/
def translate_prompt (sql : Str) : Str :=
  joinWith (str "\n")
    ((splitOnNl sql ++ [[], str "The above SQL can be rewritten as follows in SQLite"]).map
      (fun line => str "# " ++ line))
    ++ str "\n\nSELECT *"

/-- The full completion request of `_translate`. -/
def translate_req (sql : Str) : CompletionReq :=
  CompletionReq.mk (str "code-davinci-002") (translate_prompt sql) 0 150 [str "#", str ";"]

/-- `SQlite._translate`: send the rewrite prompt to the completion
endpoint and prefix the returned text with `"SELECT *\n"`. Endpoint
errors propagate. -/
def _translate {ε : Type} (completion : CompletionReq → Except ε Str) (sql : Str) :
    Except (ExecError ε) Str :=
  match completion (translate_req sql) with
  | Except.error e => Except.error (ExecError.remoteError e)
  | Except.ok text => Except.ok (str "SELECT *\n" ++ text)

/-- The chat request of `_build_query`: a fixed system instruction plus
the assembled prompt as user message. -/
def chat_req (prompt : Str) : ChatReq :=
  ChatReq.mk (str "gpt-3.5-turbo-0301")
    [ChatMessage.mk (str "system") (str "You are helpful assistant that translates Any Language to SQL"),
     ChatMessage.mk (str "user") prompt]

/-- `SQlite._build_query`: assemble the prompt, send it to the chat
endpoint, and concatenate the returned message content after a literal
`"SELECT *"`. (Extra positional/keyword call parameters are forwarded to
the endpoint verbatim and are not modelled.) -/
def _build_query {ε : Type} (chat : ChatReq → Except ε Str) (s : SQlite) (query : Str) :
    Except (ExecError ε) Str :=
  match s.make_prompt query with
  | none => Except.error ExecError.formatError
  | some prompt =>
    match chat (chat_req prompt) with
    | Except.error e => Except.error (ExecError.remoteError e)
    | Except.ok content => Except.ok (str "SELECT *" ++ content)

/-- `SQlite.build_query`: first remote call, then the translate call on
its result. -/
def build_query {ε : Type} (chat : ChatReq → Except ε Str)
    (completion : CompletionReq → Except ε Str) (s : SQlite) (query : Str) :
    Except (ExecError ε) Str :=
  match _build_query chat s query with
  | Except.error e => Except.error e
  | Except.ok q => _translate completion q

/-- `SQlite.execute`: build the final SQL and hand it to the database's
execute primitive. The first component is the outcome (the successfully
built SQL standing for the returned cursor, or the propagated error); the
second lists the statements handed to the execute primitive. -/
def execute {ε : Type} (chat : ChatReq → Except ε Str)
    (completion : CompletionReq → Except ε Str) (s : SQlite) (query : Str) :
    Except (ExecError ε) Str × List Str :=
  match build_query chat completion s query with
  | Except.error e => (Except.error e, [])
  | Except.ok sql => (Except.ok sql, [sql])

/-- The public operations of the top-level object. -/
inductive Op where
  | opTableNames : Op
  | opDescriptions : Op
  | opFormatTablesInfo : Op
  | opMakePrompt : Str → Op
  | opBuildQuery : Str → Op
  | opExecute : Str → Op

/-- Observable result of one operation. -/
inductive OpResult (ε : Type) where
  | listRes : List Str → OpResult ε
  | descRes : List (Str × List (Str × Str)) → OpResult ε
  | strRes : Str → OpResult ε
  | optRes : Option Str → OpResult ε
  | exceptRes : Except (ExecError ε) Str → OpResult ε

/-- Mutable state visible to the operations: the object itself and the
list of statements executed against the database so far. -/
structure World (ε : Type) where
  self : SQlite
  executedStmts : List Str

/-- Run one operation against the world state, mirroring which state each
method of the source touches. -/
def runOp {ε : Type} (chat : ChatReq → Except ε Str)
    (completion : CompletionReq → Except ε Str) (w : World ε) : Op → World ε × OpResult ε
  | Op.opTableNames => (w, OpResult.listRes w.self.table_names)
  | Op.opDescriptions => (w, OpResult.descRes w.self.descriptions)
  | Op.opFormatTablesInfo => (w, OpResult.strRes w.self.format_tables_info)
  | Op.opMakePrompt q => (w, OpResult.optRes (w.self.make_prompt q))
  | Op.opBuildQuery q => (w, OpResult.exceptRes (build_query chat completion w.self q))
  | Op.opExecute q =>
    let r := execute chat completion w.self q
    (World.mk w.self (w.executedStmts ++ r.2), OpResult.exceptRes r.1)

/-- A stub database for the concrete checks: one table `users` with an
`INTEGER` primary-key column `id` reported as NOT NULL and a nullable
`TEXT` column `name`, and no description map. -/
def usersDB : SQlite :=
  SQlite.mk
    (Schema.mk [str "users"]
      (fun n =>
        if n = str "users" then
          [(0, str "id", str "INTEGER", 1, none, 1),
           (1, str "name", str "TEXT", 0, none, 0)]
        else []))
    none

/-! ### Lemmas about the string helpers -/

theorem splitOnNl_ne_nil (s : Str) : splitOnNl s ≠ [] := by
  induction s with
  | nil => simp [splitOnNl]
  | cons c cs ih =>
    simp only [splitOnNl]
    split
    · simp
    · cases h : splitOnNl cs <;> simp [splitOnNl.consHead]

theorem consHead_append (c : Char) (xs ys : List Str) (h : xs ≠ []) :
    splitOnNl.consHead c (xs ++ ys) = splitOnNl.consHead c xs ++ ys := by
  cases xs with
  | nil => exact absurd rfl h
  | cons x xs => simp [splitOnNl.consHead]

theorem splitOnNl_append_nl (a b : Str) :
    splitOnNl (a ++ '\n' :: b) = splitOnNl a ++ splitOnNl b := by
  induction a with
  | nil => simp [splitOnNl]
  | cons c cs ih =>
    by_cases hc : c = '\n'
    · subst hc
      show splitOnNl ('\n' :: (cs ++ '\n' :: b)) = splitOnNl ('\n' :: cs) ++ splitOnNl b
      simp [splitOnNl, ih]
    · have h1 : splitOnNl (c :: (cs ++ '\n' :: b)) =
          splitOnNl.consHead c (splitOnNl (cs ++ '\n' :: b)) := by
        simp [splitOnNl, hc]
      have h2 : splitOnNl (c :: cs) = splitOnNl.consHead c (splitOnNl cs) := by
        simp [splitOnNl, hc]
      show splitOnNl (c :: (cs ++ '\n' :: b)) = splitOnNl (c :: cs) ++ splitOnNl b
      rw [h1, h2, ih, consHead_append c (splitOnNl cs) (splitOnNl b) (splitOnNl_ne_nil cs)]

theorem splitOnNl_no_nl (x : Str) (h : '\n' ∉ x) : splitOnNl x = [x] := by
  induction x with
  | nil => simp [splitOnNl]
  | cons c cs ih =>
    simp only [List.mem_cons, not_or] at h
    simp only [splitOnNl]
    rw [if_neg (fun hc => h.1 hc.symm), ih h.2]
    simp [splitOnNl.consHead]

theorem joinWithAux_append (sep : Str) (xs ys : List Str) :
    joinWithAux sep (xs ++ ys) = joinWithAux sep xs ++ joinWithAux sep ys := by
  induction xs with
  | nil => simp [joinWithAux]
  | cons x xs ih => simp [joinWithAux, ih]

theorem joinWithAux_eq (sep : Str) (ys : List Str) (h : ys ≠ []) :
    joinWithAux sep ys = sep ++ joinWith sep ys := by
  cases ys with
  | nil => exact absurd rfl h
  | cons y ys => simp [joinWithAux, joinWith]

theorem joinWith_append (sep : Str) (xs ys : List Str) (hx : xs ≠ []) (hy : ys ≠ []) :
    joinWith sep (xs ++ ys) = joinWith sep xs ++ sep ++ joinWith sep ys := by
  cases xs with
  | nil => exact absurd rfl hx
  | cons x xs =>
    simp only [List.cons_append, joinWith, joinWithAux_append,
      joinWithAux_eq sep ys hy, List.append_assoc]

theorem splitOnNl_joinWith (ls : List Str) (hne : ls ≠ [])
    (h : ∀ l ∈ ls, '\n' ∉ l) :
    splitOnNl (joinWith (str "\n") ls) = ls := by
  induction ls with
  | nil => exact absurd rfl hne
  | cons l ls ih =>
    cases ls with
    | nil =>
      have : joinWith (str "\n") [l] = l := by simp [joinWith, joinWithAux]
      rw [this]
      exact splitOnNl_no_nl l (h l (by simp))
    | cons l' ls' =>
      have hj : joinWith (str "\n") (l :: l' :: ls') = l ++ '\n' :: joinWith (str "\n") (l' :: ls') := by
        simp [joinWith, joinWithAux, str]
      rw [hj, splitOnNl_append_nl, splitOnNl_no_nl l (h l (by simp)),
        ih (by simp) (fun x hx => h x (List.mem_cons_of_mem l hx))]
      simp

theorem replaceNl_split (t : Str) :
    splitOnNl (replaceNl (str "\n# ") t) =
      (splitOnNl t).headI :: ((splitOnNl t).tail).map (fun l => str "# " ++ l) := by
  induction t with
  | nil => simp [replaceNl, splitOnNl]
  | cons c cs ih =>
    obtain ⟨h₀, t₀, hsplit⟩ : ∃ h₀ t₀, splitOnNl cs = h₀ :: t₀ := by
      cases h : splitOnNl cs with
      | nil => exact absurd h (splitOnNl_ne_nil cs)
      | cons a b => exact ⟨a, b, rfl⟩
    by_cases hc : c = '\n'
    · subst hc
      have hl : replaceNl (str "\n# ") ('\n' :: cs) =
          '\n' :: '#' :: ' ' :: replaceNl (str "\n# ") cs := by
        simp [replaceNl, str]
      rw [hl]
      have : splitOnNl ('\n' :: '#' :: ' ' :: replaceNl (str "\n# ") cs) =
          [] :: splitOnNl.consHead '#' (splitOnNl.consHead ' ' (splitOnNl (replaceNl (str "\n# ") cs))) := by
        simp [splitOnNl]
      rw [this, ih, hsplit]
      simp [splitOnNl, splitOnNl.consHead, str, hsplit]
    · have hl : replaceNl (str "\n# ") (c :: cs) = c :: replaceNl (str "\n# ") cs := by
        simp [replaceNl, hc]
      rw [hl]
      have h1 : splitOnNl (c :: replaceNl (str "\n# ") cs) =
          splitOnNl.consHead c (splitOnNl (replaceNl (str "\n# ") cs)) := by
        simp [splitOnNl, hc]
      have h2 : splitOnNl (c :: cs) = splitOnNl.consHead c (splitOnNl cs) := by
        simp [splitOnNl, hc]
      rw [h1, ih, h2, hsplit]
      simp [splitOnNl.consHead]

theorem splitOnNl_cons_nl (b : Str) : splitOnNl ('\n' :: b) = [] :: splitOnNl b := by
  simp [splitOnNl]

theorem splitOnNl_cons_ne (c : Char) (s : Str) (hc : c ≠ '\n') :
    splitOnNl (c :: s) = splitOnNl.consHead c (splitOnNl s) := by
  simp [splitOnNl, hc]

theorem normLine_hash (l : Str) : normLine ('#' :: l) = '#' :: l := by
  have hp : (('#' : Char) == ' ' || ('#' : Char) == '\t') = false := by decide
  simp [normLine, isWsLine, List.all_cons, hp]

theorem leadingWs_hash (l : Str) : leadingWs ('#' :: l) = [] := by
  have hp : (('#' : Char) == ' ' || ('#' : Char) == '\t') = false := by decide
  simp [leadingWs, List.takeWhile_cons, hp]

theorem isWsLine_false_of_hash (l : Str) (h : '#' ∈ l) : isWsLine l = false := by
  cases hall : l.all (fun c => c == ' ' || c == '\t') with
  | false => simp [isWsLine, hall]
  | true =>
    have hp := List.all_eq_true.mp hall '#' h
    exact absurd hp (by decide)

theorem normLine_of_hash (l : Str) (h : '#' ∈ l) : normLine l = l := by
  simp [normLine, isWsLine_false_of_hash l h]

theorem lcp_nil_left (x : Str) : lcp [] x = [] := by
  cases x <;> rfl

theorem lcp_nil_right (x : Str) : lcp x [] = [] := by
  cases x <;> rfl

theorem foldl_lcp_nil (is : List Str) : is.foldl lcp [] = [] := by
  induction is with
  | nil => rfl
  | cons i is ih => simp [List.foldl, lcp_nil_left, ih]

theorem foldl_lcp_of_mem (is : List Str) (h : [] ∈ is) (acc : Str) :
    is.foldl lcp acc = [] := by
  induction is generalizing acc with
  | nil => simp at h
  | cons i is ih =>
    rcases List.mem_cons.mp h with hi | hi
    · subst hi
      simp [List.foldl, lcp_nil_right, foldl_lcp_nil]
    · exact ih hi _

theorem dedentMargin_nil (lines : List Str) (l₀ : Str) (hmem : l₀ ∈ lines)
    (hne : l₀ ≠ []) (hlw : leadingWs l₀ = []) : dedentMargin lines = [] := by
  have hfil : l₀ ∈ lines.filter (fun l => !l.isEmpty) := by
    refine List.mem_filter.mpr ⟨hmem, ?_⟩
    simp [List.isEmpty_iff, hne]
  have hmap : ([] : Str) ∈ (lines.filter (fun l => !l.isEmpty)).map leadingWs := by
    rw [← hlw]
    exact List.mem_map_of_mem leadingWs hfil
  unfold dedentMargin
  cases h : (lines.filter (fun l => !l.isEmpty)).map leadingWs with
  | nil => rfl
  | cons i is =>
    rw [h] at hmap
    rcases List.mem_cons.mp hmap with hi | hi
    · rw [← hi]
      exact foldl_lcp_nil is
    · exact foldl_lcp_of_mem is hi i

theorem dedent_of_margin_nil (t : Str)
    (h : dedentMargin ((splitOnNl t).map normLine) = []) :
    dedent t = joinWith (str "\n") ((splitOnNl t).map normLine) := by
  simp [dedent, h, Function.comp_def]

/-! ### Lemmas about the schema formatting -/

theorem format_ne_nil (c : ColumnInfo) (desc : Option Str) : ColumnInfo.format c desc ≠ [] := by
  have hsp : str " " = [' '] := rfl
  cases desc with
  | none => simp [ColumnInfo.format, joinWith, joinWithAux, hsp]
  | some d =>
    by_cases hd : d = [] <;> simp [ColumnInfo.format, joinWith, joinWithAux, hsp, hd]

theorem tablesBlock_cons (s : SQlite) (tn : Str) (ts : List Str)
    (h : s.schema.tables = tn :: ts) :
    s.tablesBlock = '\n' :: ((str "TABLE_NAME: " ++ tn) ++ joinWithAux (str "\n")
      (TableInfo.format (TableInfo.from_rows (s.schema.table_info tn))
          (dictGetD s.descriptions tn)
        :: [] :: List.flatten (ts.map (fun table_name =>
          [[], str "TABLE_NAME: " ++ table_name,
           TableInfo.format (TableInfo.from_rows (s.schema.table_info table_name))
             (dictGetD s.descriptions table_name),
           []])))) := by
  unfold SQlite.tablesBlock SQlite.table_names
  rw [h]
  rfl

theorem tablesBlock_cons_ex (s : SQlite) (tn : Str) (ts : List Str)
    (h : s.schema.tables = tn :: ts) : ∃ W, s.tablesBlock = '\n' :: W :=
  ⟨_, tablesBlock_cons s tn ts h⟩

theorem _build_query_eq {ε : Type} (chat : ChatReq → Except ε Str) (s : SQlite)
    (q p : Str) (hp : s.make_prompt q = some p) :
    _build_query chat s q =
      (match chat (chat_req p) with
       | Except.error e => Except.error (ExecError.remoteError e)
       | Except.ok content => Except.ok (str "SELECT *" ++ content)) := by
  unfold _build_query
  rw [hp]

theorem tablesBlock_headI (s : SQlite) : (splitOnNl s.tablesBlock).headI = [] := by
  cases h : s.schema.tables with
  | nil =>
    have hb : s.tablesBlock = [] := by
      unfold SQlite.tablesBlock SQlite.table_names
      rw [h]
      rfl
    rw [hb]
    rfl
  | cons tn ts =>
    obtain ⟨W, hW⟩ := tablesBlock_cons_ex s tn ts h
    rw [hW]
    simp [splitOnNl]

/-! ### Claims -/

/-- C1, counterexample: for the stub schema, the output of
`format_tables_info()` has an (empty) line that does not start with the
comment marker `"# "` — the rewrite `.replace("\n", "\n# ")` prefixes
every line except the first, and the first line is empty. -/
theorem c1_counterexample :
    ([] : Str) ∈ splitOnNl (SQlite.format_tables_info usersDB)
    ∧ ¬ str "# " <+: ([] : Str) := by decide

/-- C1 (amended): for every database schema and description map, the
first line of `format_tables_info()` is empty, and every line after the
first starts with the comment marker `"# "` (so every blank separator
line other than the first becomes a `"# "` line). -/
theorem c1_format_tables_info_lines (s : SQlite) :
    (splitOnNl s.format_tables_info).headI = []
    ∧ ∀ l ∈ (splitOnNl s.format_tables_info).tail, str "# " <+: l := by
  have hsplit : splitOnNl s.format_tables_info =
      (splitOnNl s.tablesBlock).headI
        :: ((splitOnNl s.tablesBlock).tail).map (fun l => str "# " ++ l) :=
    replaceNl_split s.tablesBlock
  constructor
  · rw [hsplit]
    simp only [List.headI]
    exact tablesBlock_headI s
  · rw [hsplit]
    intro l hl
    simp only [List.tail_cons] at hl
    obtain ⟨x, _, rfl⟩ := List.mem_map.mp hl
    exact ⟨x, rfl⟩

/-- Witness for C1 (amended) at the stub schema: the first line of the
output is empty, and the concrete tail line `"# TABLE_NAME: users"`
carries the comment marker. -/
theorem c1_format_tables_info_lines_witness :
    (splitOnNl (SQlite.format_tables_info usersDB)).headI = []
    ∧ str "# " <+: str "# TABLE_NAME: users" :=
  ⟨(c1_format_tables_info_lines usersDB).1,
   (c1_format_tables_info_lines usersDB).2 (str "# TABLE_NAME: users") (by decide)⟩

/-- C3: if a remote completion call fails, `execute` propagates that
error (wrapped only by the typing injection `remoteError`) and hands no
statement to the database's execute primitive — whether the chat call
fails, or the chat call succeeds and the translate call fails. -/
theorem c3_execute_propagates {ε : Type} (chat : ChatReq → Except ε Str)
    (completion : CompletionReq → Except ε Str) (s : SQlite) (q : Str) (e : ε)
    (hp : (s.make_prompt q).isSome = true) :
    ((∀ r, chat r = Except.error e) →
      execute chat completion s q = (Except.error (ExecError.remoteError e), []))
    ∧ (∀ t : Str, (∀ r, chat r = Except.ok t) → (∀ r, completion r = Except.error e) →
      execute chat completion s q = (Except.error (ExecError.remoteError e), [])) := by
  obtain ⟨p, hp⟩ := Option.isSome_iff_exists.mp hp
  constructor
  · intro hchat
    have h1 : build_query chat completion s q = Except.error (ExecError.remoteError e) := by
      unfold build_query
      rw [_build_query_eq chat s q p hp, hchat (chat_req p)]
    unfold execute
    rw [h1]
  · intro t hchat hcomp
    have h1 : build_query chat completion s q = Except.error (ExecError.remoteError e) := by
      unfold build_query
      rw [_build_query_eq chat s q p hp, hchat (chat_req p)]
      show _translate completion (str "SELECT *" ++ t) = Except.error (ExecError.remoteError e)
      unfold _translate
      rw [hcomp]
    unfold execute
    rw [h1]

/-- Witness for C3 at the stub schema, with a chat endpoint that always
fails, and with a chat endpoint that succeeds while the completion
endpoint fails. -/
theorem c3_execute_propagates_witness :
    ((SQlite.make_prompt usersDB (str "list users")).isSome = true)
    ∧ @execute Nat (fun _ => Except.error 7) (fun _ => Except.error 7) usersDB (str "list users")
      = (Except.error (ExecError.remoteError 7), [])
    ∧ @execute Nat (fun _ => Except.ok (str " x")) (fun _ => Except.error 7) usersDB (str "list users")
      = (Except.error (ExecError.remoteError 7), []) :=
  ⟨by decide,
   (c3_execute_propagates (fun _ => Except.error 7) (fun _ => Except.error 7) usersDB
     (str "list users") 7 (by decide)).1 (fun _ => rfl),
   (c3_execute_propagates (fun _ => Except.ok (str " x")) (fun _ => Except.error 7) usersDB
     (str "list users") 7 (by decide)).2 (str " x") (fun _ => rfl) (fun _ => rfl)⟩

/-- C4: for the stub schema `users(id INTEGER PK NOT NULL, name TEXT)`
with no descriptions, the output of `format_tables_info()` contains the
text `"id INTEGER NOTNULL"` and the text `"name TEXT NULLABLE"` (each as
part of a comment-prefixed line, recorded by the last two conjuncts). -/
theorem c4_stub_lines :
    str "id INTEGER NOTNULL" <:+: SQlite.format_tables_info usersDB
    ∧ str "name TEXT NULLABLE" <:+: SQlite.format_tables_info usersDB
    ∧ str "# id INTEGER NOTNULL" ∈ splitOnNl (SQlite.format_tables_info usersDB)
    ∧ str "# name TEXT NULLABLE" ∈ splitOnNl (SQlite.format_tables_info usersDB) := by
  decide

/-- C5: `format(None)` yields the bare `name type NOTNULL|NULLABLE` line;
for non-empty `x`, `format(x)` is that line extended by `" description: x"`
(in particular it ends with `"description: x"`); an empty description
yields the bare line — the suffix appears only for truthy descriptions. -/
theorem c5_column_format_description (c : ColumnInfo) :
    ColumnInfo.format c none =
      joinWith (str " ") [c.name, c.type, if c.notnull ≠ 0 then str "NOTNULL" else str "NULLABLE"]
    ∧ (∀ x : Str, x ≠ [] →
        ColumnInfo.format c (some x) = ColumnInfo.format c none ++ str " description: " ++ x
        ∧ (str "description: " ++ x) <:+ ColumnInfo.format c (some x))
    ∧ ColumnInfo.format c (some []) = ColumnInfo.format c none := by
  refine ⟨rfl, ?_, rfl⟩
  intro x hx
  have heq : ColumnInfo.format c (some x) = ColumnInfo.format c none ++ str " description: " ++ x := by
    unfold ColumnInfo.format
    simp only [hx, if_neg hx]
    simp [joinWith, joinWithAux, List.append_assoc, str]
  refine ⟨heq, ?_⟩
  rw [heq]
  refine ⟨ColumnInfo.format c none ++ str " ", ?_⟩
  simp [List.append_assoc, str]

/-- Witness for C5 at a concrete column and description. -/
theorem c5_column_format_description_witness :
    ((str "x" : Str) ≠ [])
    ∧ ColumnInfo.format (ColumnInfo.mk 0 (str "name") (str "TEXT") 0 none 0) (some (str "x"))
      = ColumnInfo.format (ColumnInfo.mk 0 (str "name") (str "TEXT") 0 none 0) none
        ++ str " description: " ++ str "x"
    ∧ (str "description: " ++ str "x")
      <:+ ColumnInfo.format (ColumnInfo.mk 0 (str "name") (str "TEXT") 0 none 0) (some (str "x")) :=
  ⟨by decide,
   ((c5_column_format_description (ColumnInfo.mk 0 (str "name") (str "TEXT") 0 none 0)).2.1
     (str "x") (by decide)).1,
   ((c5_column_format_description (ColumnInfo.mk 0 (str "name") (str "TEXT") 0 none 0)).2.1
     (str "x") (by decide)).2⟩

/-- C6, counterexample: a description containing a newline makes
`table.format` produce two lines for a single column, so "exactly one
line per column for every description map" fails. -/
theorem c6_counterexample :
    (splitOnNl (TableInfo.format (TableInfo.mk [ColumnInfo.mk 0 (str "c") (str "TEXT") 0 none 0])
      [(str "c", str "a\nb")])).length = 2
    ∧ (TableInfo.mk [ColumnInfo.mk 0 (str "c") (str "TEXT") 0 none 0]).columns.length = 1 := by
  decide

/-- C6 (amended): provided every column's formatted line is newline-free
(no newline in names, types, or the descriptions that apply),
`table.format(map)` splits into exactly one line per column, in column
order; and the result is non-empty whenever the column list is
non-empty. -/
theorem c6_table_format_lines (t : TableInfo) (d : List (Str × Str))
    (hne : t.columns ≠ [])
    (hnl : ∀ c ∈ t.columns, '\n' ∉ ColumnInfo.format c (dictGet d c.name)) :
    splitOnNl (TableInfo.format t d)
      = t.columns.map (fun c => ColumnInfo.format c (dictGet d c.name))
    ∧ TableInfo.format t d ≠ [] := by
  constructor
  · unfold TableInfo.format
    apply splitOnNl_joinWith
    · simpa using hne
    · intro l hl
      obtain ⟨c, hc, rfl⟩ := List.mem_map.mp hl
      exact hnl c hc
  · unfold TableInfo.format
    cases hcols : t.columns with
    | nil => exact absurd hcols hne
    | cons c cols =>
      simp only [List.map_cons, joinWith]
      intro hcontra
      exact format_ne_nil c (dictGet d c.name) (List.append_eq_nil.mp hcontra).1

/-- Witness for C6 (amended) at the stub `users` table with an empty
description map. -/
theorem c6_table_format_lines_witness :
    ((TableInfo.from_rows (usersDB.schema.table_info (str "users"))).columns ≠ [])
    ∧ splitOnNl (TableInfo.format (TableInfo.from_rows (usersDB.schema.table_info (str "users"))) [])
      = (TableInfo.from_rows (usersDB.schema.table_info (str "users"))).columns.map
          (fun c => ColumnInfo.format c (dictGet [] c.name))
    ∧ TableInfo.format (TableInfo.from_rows (usersDB.schema.table_info (str "users"))) [] ≠ [] :=
  ⟨by decide,
   (c6_table_format_lines (TableInfo.from_rows (usersDB.schema.table_info (str "users"))) []
     (by decide) (by decide)).1,
   (c6_table_format_lines (TableInfo.from_rows (usersDB.schema.table_info (str "users"))) []
     (by decide) (by decide)).2⟩

/-- C7: with a chat endpoint whose response content is
`" SELECT id FROM users"`, `_build_query` returns exactly
`"SELECT * SELECT id FROM users"` — the content is concatenated after the
literal `"SELECT *"`, not substituted for it. -/
theorem c7_build_query_concatenates {ε : Type} (chat : ChatReq → Except ε Str)
    (s : SQlite) (q : Str)
    (hchat : ∀ r, chat r = Except.ok (str " SELECT id FROM users"))
    (hp : (s.make_prompt q).isSome = true) :
    _build_query chat s q = Except.ok (str "SELECT * SELECT id FROM users") := by
  obtain ⟨p, hp⟩ := Option.isSome_iff_exists.mp hp
  rw [_build_query_eq chat s q p hp, hchat (chat_req p)]
  rfl

/-- Witness for C7 at the stub schema. -/
theorem c7_build_query_concatenates_witness :
    ((SQlite.make_prompt usersDB (str "list users")).isSome = true)
    ∧ @_build_query Nat (fun _ => Except.ok (str " SELECT id FROM users")) usersDB (str "list users")
      = Except.ok (str "SELECT * SELECT id FROM users") :=
  ⟨by decide,
   c7_build_query_concatenates (fun _ => Except.ok (str " SELECT id FROM users")) usersDB
     (str "list users") (fun _ => rfl) (by decide)⟩

/-- C8: for every endpoint response text `t`, `_translate` returns
`"SELECT *\n" ++ t` — in particular, for the stub response
`" WHERE name='a'\n"` the result starts with `"SELECT *\n"` followed by
that text verbatim. -/
theorem c8_translate_prefixes {ε : Type} (completion : CompletionReq → Except ε Str)
    (sql t : Str) (h : completion (translate_req sql) = Except.ok t) :
    _translate completion sql = Except.ok (str "SELECT *\n" ++ t) := by
  unfold _translate
  rw [h]

/-- Witness for C8 with the stub response of the spec. -/
theorem c8_translate_prefixes_witness :
    ((fun _ => Except.ok (str " WHERE name=\x27a\x27\n") : CompletionReq → Except Nat Str)
      (translate_req (str "SELECT * SELECT id FROM users"))
      = Except.ok (str " WHERE name=\x27a\x27\n"))
    ∧ @_translate Nat (fun _ => Except.ok (str " WHERE name=\x27a\x27\n"))
        (str "SELECT * SELECT id FROM users")
      = Except.ok (str "SELECT *\n" ++ str " WHERE name=\x27a\x27\n") :=
  ⟨rfl,
   c8_translate_prefixes (fun _ => Except.ok (str " WHERE name=\x27a\x27\n"))
     (str "SELECT * SELECT id FROM users") (str " WHERE name=\x27a\x27\n") rfl⟩

/-- C9: no operation of the top-level object changes the description map:
after any of `table_names`, `descriptions`, `format_tables_info`,
`make_prompt`, `build_query`, `execute`, the `column_descriptions` field
equals its value at construction. -/
theorem c9_descriptions_immutable {ε : Type} (chat : ChatReq → Except ε Str)
    (completion : CompletionReq → Except ε Str) (w : World ε) (op : Op) :
    ((runOp chat completion w op).1).self.column_descriptions
      = w.self.column_descriptions := by
  cases op <;> rfl

/-- C2, counterexample: for the stub schema, `make_prompt` succeeds but no
line of its output is the literal `"SELECT *"` (the anchor line keeps the
12-blank template indentation, shown by the last conjunct), and the output
does not end with `"SELECT *"` either (a trailing newline follows). -/
theorem c2_counterexample :
    (SQlite.make_prompt usersDB (str "How many users")).isSome = true
    ∧ str "SELECT *" ∉ splitOnNl ((SQlite.make_prompt usersDB (str "How many users")).getD [])
    ∧ ¬ str "SELECT *" <:+ (SQlite.make_prompt usersDB (str "How many users")).getD []
    ∧ str "            SELECT *"
      ∈ splitOnNl ((SQlite.make_prompt usersDB (str "How many users")).getD []) := by
  decide

/-- C2 (amended): for every schema with at least one table and every
question whose `str.format` call succeeds with a newline-free result
`q'`, the output of `make_prompt` ends with a comment-formatted `q'` line
and a `SELECT *` anchor line immediately below it, each carrying the
12-blank template indentation (which `dedent` does not strip, because the
schema block's lines start at column 0), followed by a trailing
newline. -/
theorem c2_make_prompt_anchor (s : SQlite) (q q' : Str)
    (htab : s.schema.tables ≠ [])
    (hfmt : pyFormat q [str "\n", str "\n# "] = some q')
    (hnl : '\n' ∉ q') :
    ∃ p, SQlite.make_prompt s q = some p
      ∧ (str "\n            # " ++ q' ++ str "\n            SELECT *\n") <:+ p := by
  obtain ⟨tn, ts, htn⟩ : ∃ tn ts, s.schema.tables = tn :: ts := by
    cases h : s.schema.tables with
    | nil => exact absurd h htab
    | cons a b => exact ⟨a, b, rfl⟩
  obtain ⟨W, hW⟩ := tablesBlock_cons_ex s tn ts htn
  have hF : s.format_tables_info = '\n' :: '#' :: ' ' :: replaceNl (str "\n# ") W := by
    unfold SQlite.format_tables_info
    rw [hW]
    rfl
  obtain ⟨h₀, t₀, hsp⟩ : ∃ h₀ t₀, splitOnNl (replaceNl (str "\n# ") W) = h₀ :: t₀ := by
    cases h : splitOnNl (replaceNl (str "\n# ") W) with
    | nil => exact absurd h (splitOnNl_ne_nil _)
    | cons a b => exact ⟨a, b, rfl⟩
  have hA : str "\n            " = '\n' :: str "            " := rfl
  have hB : str "\n            # " = '\n' :: str "            # " := rfl
  have hC : str "\n            SELECT *\n            "
      = ('\n' :: str "            SELECT *") ++ ('\n' :: str "            ") := rfl
  have hq2 : '\n' ∉ str "            # " ++ q' := by
    intro hmem
    rcases List.mem_append.mp hmem with h1 | h1
    · exact absurd h1 (by decide)
    · exact hnl h1
  have ht : str "\n            " ++ s.format_tables_info
        ++ str "\n            # " ++ q' ++ str "\n            SELECT *\n            "
      = '\n' :: (str "            " ++ ('\n' :: ('#' :: ' ' :: (replaceNl (str "\n# ") W
          ++ ('\n' :: (str "            # " ++ (q' ++ ('\n' :: (str "            SELECT *"
          ++ ('\n' :: str "            ")))))))))) := by
    rw [hF, hA, hB, hC]
    simp [List.append_assoc]
  have hsplit : splitOnNl (str "\n            " ++ s.format_tables_info
        ++ str "\n            # " ++ q' ++ str "\n            SELECT *\n            ")
      = [] :: str "            " :: ('#' :: ' ' :: h₀)
        :: (t₀ ++ [str "            # " ++ q', str "            SELECT *", str "            "]) := by
    rw [ht, splitOnNl_cons_nl, splitOnNl_append_nl,
      splitOnNl_no_nl (str "            ") (by decide),
      splitOnNl_cons_ne '#' _ (by decide), splitOnNl_cons_ne ' ' _ (by decide),
      splitOnNl_append_nl, hsp,
      ← List.append_assoc (str "            # ") q',
      splitOnNl_append_nl, splitOnNl_no_nl (str "            # " ++ q') hq2,
      splitOnNl_append_nl, splitOnNl_no_nl (str "            SELECT *") (by decide),
      splitOnNl_no_nl (str "            ") (by decide)]
    simp [splitOnNl.consHead]
  have hnorm : (splitOnNl (str "\n            " ++ s.format_tables_info
        ++ str "\n            # " ++ q' ++ str "\n            SELECT *\n            ")).map normLine
      = [] :: [] :: ('#' :: ' ' :: h₀)
        :: (t₀.map normLine ++ [str "            # " ++ q', str "            SELECT *", []]) := by
    rw [hsplit]
    have e1 : normLine ([] : Str) = [] := rfl
    have e2 : normLine (str "            ") = [] := by decide
    have e3 : normLine ('#' :: ' ' :: h₀) = '#' :: ' ' :: h₀ := normLine_hash _
    have e4 : normLine (str "            # " ++ q') = str "            # " ++ q' :=
      normLine_of_hash _ (List.mem_append_left q' (by decide))
    have e5 : normLine (str "            SELECT *") = str "            SELECT *" := by decide
    simp [e1, e2, e3, e4, e5]
  have hmargin : dedentMargin ((splitOnNl (str "\n            " ++ s.format_tables_info
        ++ str "\n            # " ++ q' ++ str "\n            SELECT *\n            ")).map normLine)
      = [] := by
    apply dedentMargin_nil _ ('#' :: ' ' :: h₀) _ (by simp) (leadingWs_hash _)
    rw [hnorm]
    simp
  have hd := dedent_of_margin_nil _ hmargin
  refine ⟨dedent (str "\n            " ++ s.format_tables_info
    ++ str "\n            # " ++ q' ++ str "\n            SELECT *\n            "), ?_, ?_⟩
  · unfold SQlite.make_prompt
    rw [hfmt]
    rfl
  · rw [hd, hnorm]
    have hXY : ([] : Str) :: [] :: ('#' :: ' ' :: h₀)
          :: (t₀.map normLine ++ [str "            # " ++ q', str "            SELECT *", ([] : Str)])
        = (([] : Str) :: [] :: ('#' :: ' ' :: h₀) :: t₀.map normLine)
          ++ [str "            # " ++ q', str "            SELECT *", []] := by
      simp
    rw [hXY, joinWith_append _ _ _ (by simp) (by simp)]
    refine ⟨joinWith (str "\n") (([] : Str) :: [] :: ('#' :: ' ' :: h₀) :: t₀.map normLine), ?_⟩
    have hNl : str "\n" = ['\n'] := rfl
    have hC2 : str "\n            SELECT *\n" = ('\n' :: str "            SELECT *") ++ ['\n'] := rfl
    rw [hB, hC2]
    simp [joinWith, joinWithAux, hNl, List.append_assoc]

/-- Witness for C2 (amended) at the stub schema with a plain question. -/
theorem c2_make_prompt_anchor_witness :
    (usersDB.schema.tables ≠ [])
    ∧ (pyFormat (str "How many users") [str "\n", str "\n# "] = some (str "How many users"))
    ∧ ('\n' ∉ str "How many users")
    ∧ ∃ p, SQlite.make_prompt usersDB (str "How many users") = some p
        ∧ (str "\n            # " ++ str "How many users" ++ str "\n            SELECT *\n") <:+ p :=
  ⟨by decide, by decide, by decide,
   c2_make_prompt_anchor usersDB (str "How many users") (str "How many users")
     (by decide) (by decide) (by decide)⟩

/-- C10: `make_prompt` is not total on arbitrary question strings: a
question consisting of a single opening brace makes the `str.format` call
fail (for every schema), and a question `"\x7b0\x7d"` is rewritten to the
first format argument `"\n"` rather than being embedded verbatim. -/
theorem c10_make_prompt_not_total :
    (∀ s : SQlite, SQlite.make_prompt s (str "\x7b") = none)
    ∧ pyFormat (str "\x7b0\x7d") [str "\n", str "\n# "] = some (str "\n")
    ∧ str "\n" ≠ str "\x7b0\x7d" :=
  ⟨fun _ => rfl, by decide, by decide⟩

end NLQ
